import Mathlib

/-!
Verification of the p3data record normalization and scoring pipeline
(`src/p3data.py`) as a shallow embedding in Lean.

Modelling conventions:
* a spreadsheet cell that is null/NaN is `none`; a present cell is `some v`;
* a calendar date is its civil day number (`ℤ`, days-from-civil encoding),
  so `date + timedelta(days = k)` is integer addition of `k`;
* a pandas DataFrame is a `List` of records; whether the merged frame has
  the fragment columns (`Year`, `Month.1`, `Day`) or the `Date` column is
  carried by the booleans `hasFragCols` / `hasDateCol`;
* `Child_Age_Months` uses exact rational arithmetic with round-half-to-even
  at one decimal, mirroring `Series.round(1)`;
* the reference `today` (captured once in `main`) is a parameter.
-/

/-- `PREDICT_REMAINING_WEEKS = 20` from the config section. -/
def PREDICT_REMAINING_WEEKS : ℤ := 20

/-- `DEFAULT_FAKE_THRESHOLD = 70` from the config section. -/
def DEFAULT_FAKE_THRESHOLD : ℤ := 70

/-- Pregnancy status values returned by `pregnancy_status`. -/
inductive Status where
  | Pregnant
  | Has_Child
  | Unknown
deriving DecidableEq, Repr

/-- Confidence labels produced by `pd.cut` in `main`. -/
inductive Label where
  | High
  | Medium
  | Low
deriving DecidableEq, Repr

/-- One raw input row after the merge step, with the columns the pipeline
reads. `Month1` is the column literally named `Month.1`. A `none` cell is
a null/NaN cell (or a cell of a column absent from that source file). -/
structure RawRecord where
  FirstName : Option String
  Mobile : Option String
  S1 : Option String
  S2 : Option String
  Year : Option ℤ
  Month1 : Option ℤ
  Day : Option ℤ
  Date : Option String
deriving DecidableEq, Repr

/-- Python `str.strip()`: drop leading and trailing whitespace. -/
def pyStrip (cs : List Char) : List Char :=
  ((cs.dropWhile Char.isWhitespace).reverse.dropWhile Char.isWhitespace).reverse

/-- `re.sub(r"\.0$", "", s)`: drop one trailing `".0"` if present. -/
def stripDotZero (cs : List Char) : List Char :=
  if cs.reverse.take 2 = ['0', '.'] then cs.dropLast.dropLast else cs

/-- `normalize_phone`: NaN becomes `""`; otherwise render to text, strip
whitespace, drop one trailing `".0"`, then keep digit characters only. -/
def normalize_phone (x : Option String) : String :=
  match x with
  | none => ""
  | some raw => String.mk ((stripDotZero (pyStrip raw.toList)).filter Char.isDigit)

/-- Gregorian leap year test, as used by the datetime library backing
`pd.to_datetime`. -/
def isLeapYear (y : ℤ) : Bool :=
  (y % 4 == 0 && y % 100 != 0) || (y % 400 == 0)

/-- Number of days in a month of a given year. -/
def daysInMonth (y m : ℤ) : ℤ :=
  if m = 2 then (if isLeapYear y then 29 else 28)
  else if m = 4 ∨ m = 6 ∨ m = 9 ∨ m = 11 then 30
  else 31

/-- A year/month/day triple denotes a real calendar date. -/
def validYMD (y m d : ℤ) : Bool :=
  1 ≤ m && m ≤ 12 && 1 ≤ d && d ≤ daysInMonth y m

/-- Civil day number of a calendar date (days since 1970-01-01), the
standard days-from-civil computation; it embeds what a pandas `Timestamp`
stores for a date. -/
def daysFromCivil (y m d : ℤ) : ℤ :=
  let y2 : ℤ := if m ≤ 2 then y - 1 else y
  let era : ℤ := (if 0 ≤ y2 then y2 else y2 - 399) / 400
  let yoe : ℤ := y2 - era * 400
  let mp : ℤ := (m + 9) % 12
  let doy : ℤ := (153 * mp + 2) / 5 + d - 1
  let doe : ℤ := yoe * 365 + yoe / 4 - yoe / 100 + doy
  era * 146097 + doe - 719468

/-- Row-level result of `pd.to_datetime(df[["Year","Month.1","Day"]], errors="coerce")`:
a missing fragment or an invalid calendar combination coerces to NaT. -/
def parseFragments (r : RawRecord) : Option ℤ :=
  match r.Year, r.Month1, r.Day with
  | some y, some m, some d =>
      if validYMD y m d then some (daysFromCivil y m d) else none
  | _, _, _ => none

/-- Row-level result of `pd.to_datetime(df["Date"], errors="coerce", dayfirst=True)`
on the dd/mm/yyyy text the file holds: split on `/`, read day first;
anything unparseable or invalid coerces to NaT. -/
def parseDateText (s : String) : Option ℤ :=
  match (s.trim.splitOn "/").map String.toInt? with
  | [some d, some m, some y] =>
      if validYMD y m d then some (daysFromCivil y m d) else none
  | _ => none

/-- The tail of `build_register_date` after the fragment attempt is
rejected or unavailable: parse the `Date` column per row if it exists,
otherwise every record's date is NaT. -/
def dateFallback (hasDateCol : Bool) (rows : List RawRecord) : List (Option ℤ) :=
  if hasDateCol then rows.map (fun r => r.Date.bind parseDateText)
  else rows.map (fun _ => none)

/-- `build_register_date`: when the three fragment columns exist, parse
them for every row; keep that whole-batch result when
`s.isna().mean() < 0.9`, i.e. when `10 * failures < 9 * len(rows)`
(an empty batch has NaN mean, which compares false); otherwise fall back
to the `Date` column, and failing that to all-NaT. -/
def build_register_date (hasFragCols hasDateCol : Bool) (rows : List RawRecord) :
    List (Option ℤ) :=
  if hasFragCols then
    let s := rows.map parseFragments
    if 10 * s.countP Option.isNone < 9 * rows.length then s
    else dateFallback hasDateCol rows
  else dateFallback hasDateCol rows

/-- `pregnancy_status`: S1 present wins, then S2 present, else Unknown. -/
def pregnancy_status (r : RawRecord) : Status :=
  if r.S1.isSome then Status.Pregnant
  else if r.S2.isSome then Status.Has_Child
  else Status.Unknown

/-- Round a rational to the nearest integer, ties to even — the rounding
mode of numpy behind `Series.round`. -/
def roundHalfEven (q : ℚ) : ℤ :=
  let f : ℤ := ⌊q⌋
  let r : ℚ := q - f
  if r < 1/2 then f
  else if 1/2 < r then f + 1
  else if f % 2 = 0 then f else f + 1

/-- `Series.round(1)`: round to one decimal place. -/
def round1 (q : ℚ) : ℚ := (roundHalfEven (q * 10) : ℚ) / 10

/-- A record after the normalization, date-resolution, status and
prediction stages of `main` (columns `Mobile_norm` … `Child_Age_Months`). -/
structure Enriched where
  firstName : Option String
  mobileNorm : String
  registerDate : Option ℤ
  status : Status
  predictedBirth : Option ℤ
  childAgeMonths : Option ℚ
deriving DecidableEq, Repr

/-- Per-row enrichment of `main`: normalized phone, resolved date, status,
`Predicted_Giving_Birth_Date` (only for Pregnant rows; NaT propagates) and
`Child_Age_Months` (only for Has_Child rows; NaT yields NA). -/
def enrichRow (today : ℤ) (r : RawRecord) (d : Option ℤ) : Enriched :=
  let st := pregnancy_status r
  { firstName := r.FirstName
    mobileNorm := normalize_phone r.Mobile
    registerDate := d
    status := st
    predictedBirth :=
      if st = Status.Pregnant then d.map (fun x => x + PREDICT_REMAINING_WEEKS * 7)
      else none
    childAgeMonths :=
      if st = Status.Has_Child then d.map (fun x => round1 ((today - x : ℤ) / (30 : ℚ)))
      else none }

/-- Enrichment over the whole merged frame: `Register_Date` is built
batch-wide, the other derived columns row by row. -/
def enrich (today : ℤ) (hasFragCols hasDateCol : Bool) (rows : List RawRecord) :
    List Enriched :=
  (rows.zip (build_register_date hasFragCols hasDateCol rows)).map
    (fun p => enrichRow today p.1 p.2)

/-- A fully processed record (adds `Fake_Score`, `Confidence_Label`,
`Sales_Ready`). `confidence` is `Option Label` because `pd.cut` yields NaN
outside its bins. -/
structure Rec extends Enriched where
  fakeScore : ℤ
  confidence : Option Label
  salesReady : Bool
deriving DecidableEq, Repr

/-- The raw fake score of one record: the sum of the five weighted signals
of `main`, where `norms` is the whole batch's `Mobile_norm` column
(`duplicated(keep=False)` marks a row iff its value occurs more than once). -/
def rawScore (norms : List String) (e : Enriched) : ℤ :=
  (if e.firstName.isNone then 20 else 0)
  + (if e.mobileNorm.length < 9 then 25 else 0)
  + (if 1 < norms.count e.mobileNorm then 20 else 0)
  + (if e.registerDate.isNone then 15 else 0)
  + (if 72 < e.childAgeMonths.getD 0 then 20 else 0)

/-- `Series.clip(0, 100)`. -/
def clip (x : ℤ) : ℤ := max 0 (min x 100)

/-- `pd.cut(score, bins=[-1, 30, 70, 100], labels=["High","Medium","Low"])`:
half-open bins, right-inclusive; values outside `(-1, 100]` get NaN. -/
def confidence_label (s : ℤ) : Option Label :=
  if -1 < s ∧ s ≤ 30 then some Label.High
  else if 30 < s ∧ s ≤ 70 then some Label.Medium
  else if 70 < s ∧ s ≤ 100 then some Label.Low
  else none

/-- Scoring stage for one record: clipped fake score, confidence label,
and the sales-ready flag `Fake_Score <= DEFAULT_FAKE_THRESHOLD`. -/
def scoreRow (norms : List String) (e : Enriched) : Rec :=
  let sc := clip (rawScore norms e)
  { toEnriched := e
    fakeScore := sc
    confidence := confidence_label sc
    salesReady := decide (sc ≤ DEFAULT_FAKE_THRESHOLD) }

/-- `pd.concat(frames, ignore_index=True)`: the merged frame. -/
def mergedRows (sources : List (List RawRecord)) : List RawRecord :=
  sources.flatten

/-- The merged frame after the enrichment stages. -/
def enrichedBatch (today : ℤ) (hasFragCols hasDateCol : Bool)
    (sources : List (List RawRecord)) : List Enriched :=
  enrich today hasFragCols hasDateCol (mergedRows sources)

/-- The `Mobile_norm` column of the whole batch. -/
def batchNorms (today : ℤ) (hasFragCols hasDateCol : Bool)
    (sources : List (List RawRecord)) : List String :=
  (enrichedBatch today hasFragCols hasDateCol sources).map Enriched.mobileNorm

/-- The batch after the fake-score stage, before sorting. -/
def scoredRecords (today : ℤ) (hasFragCols hasDateCol : Bool)
    (sources : List (List RawRecord)) : List Rec :=
  (enrichedBatch today hasFragCols hasDateCol sources).map
    (scoreRow (batchNorms today hasFragCols hasDateCol sources))

/-- Ordering on resolved dates used by `sort_values`: ascending with NaT
last (`na_position="last"`). -/
def dateLE : Option ℤ → Option ℤ → Bool
  | some a, some b => decide (a ≤ b)
  | some _, none => true
  | none, some _ => false
  | none, none => true

/-- The `sort_values(["Fake_Score", "Register_Date"])` key order:
lexicographic on score then date. -/
def recLE (a b : Rec) : Bool :=
  if a.fakeScore = b.fakeScore then dateLE a.registerDate b.registerDate
  else decide (a.fakeScore ≤ b.fakeScore)

/-- The full pipeline of `main` from the merged sources to the table handed
to `to_excel`: enrichment, scoring, then the final sort. -/
def pipeline (today : ℤ) (hasFragCols hasDateCol : Bool)
    (sources : List (List RawRecord)) : List Rec :=
  (scoredRecords today hasFragCols hasDateCol sources).mergeSort recLE

/-- C9: `normalize_phone` is total with digits-only (possibly empty)
output; null maps to the empty string; `"0901234567.0"` maps to
`"0901234567"`. -/
theorem C9_normalize_phone (x : Option String) :
    (∀ c ∈ (normalize_phone x).toList, c.isDigit = true)
    ∧ normalize_phone none = ""
    ∧ normalize_phone (some "0901234567.0") = "0901234567" := by
  refine ⟨?_, rfl, by decide⟩
  cases x with
  | none => intro c hc; simp [normalize_phone] at hc
  | some s =>
      intro c hc
      have : c ∈ (stripDotZero (pyStrip s.toList)).filter Char.isDigit := hc
      exact List.of_mem_filter this

/-- C9 witness: the digit property at a concrete input. -/
theorem C9_normalize_phone_witness :
    '0' ∈ (normalize_phone (some "0901234567.0")).toList ∧ '0'.isDigit = true :=
  ⟨by decide, (C9_normalize_phone (some "0901234567.0")).1 '0' (by decide)⟩

/-! ### Structural lemmas about the pipeline stages -/

theorem length_dateFallback (hasDateCol : Bool) (rows : List RawRecord) :
    (dateFallback hasDateCol rows).length = rows.length := by
  unfold dateFallback; split <;> simp

theorem length_build_register_date (hf hd : Bool) (rows : List RawRecord) :
    (build_register_date hf hd rows).length = rows.length := by
  cases hf
  · simpa only [build_register_date, Bool.false_eq_true, if_false] using
      length_dateFallback hd rows
  · simp only [build_register_date, if_true]
    split
    · simp
    · exact length_dateFallback hd rows

theorem length_enrich (today : ℤ) (hf hd : Bool) (rows : List RawRecord) :
    (enrich today hf hd rows).length = rows.length := by
  unfold enrich
  rw [List.length_map, List.length_zip, length_build_register_date, Nat.min_self]

theorem mem_enrich_shape {today : ℤ} {hf hd : Bool} {rows : List RawRecord}
    {e : Enriched} (h : e ∈ enrich today hf hd rows) :
    ∃ r d, e = enrichRow today r d := by
  unfold enrich at h
  obtain ⟨p, _, hpe⟩ := List.mem_map.mp h
  exact ⟨p.1, p.2, hpe.symm⟩

theorem enrich_map_mobileNorm (today : ℤ) (hf hd : Bool) (rows : List RawRecord) :
    (enrich today hf hd rows).map Enriched.mobileNorm
      = rows.map (fun r => normalize_phone r.Mobile) := by
  unfold enrich
  rw [List.map_map]
  have hz : (rows.zip (build_register_date hf hd rows)).map Prod.fst = rows :=
    List.map_fst_zip rows _ (by rw [length_build_register_date])
  calc (rows.zip (build_register_date hf hd rows)).map
          (Enriched.mobileNorm ∘ fun p => enrichRow today p.1 p.2)
      = ((rows.zip (build_register_date hf hd rows)).map Prod.fst).map
          (fun r => normalize_phone r.Mobile) := by
        rw [List.map_map]; rfl
    _ = rows.map (fun r => normalize_phone r.Mobile) := by rw [hz]

theorem rawScore_nonneg (norms : List String) (e : Enriched) :
    0 ≤ rawScore norms e := by
  unfold rawScore; split_ifs <;> norm_num

theorem rawScore_le_100 (norms : List String) (e : Enriched) :
    rawScore norms e ≤ 100 := by
  unfold rawScore; split_ifs <;> norm_num

theorem clip_rawScore (norms : List String) (e : Enriched) :
    clip (rawScore norms e) = rawScore norms e := by
  have h0 := rawScore_nonneg norms e
  have h1 := rawScore_le_100 norms e
  unfold clip; omega

theorem scoreRow_fakeScore (norms : List String) (e : Enriched) :
    (scoreRow norms e).fakeScore = rawScore norms e := by
  show clip (rawScore norms e) = rawScore norms e
  exact clip_rawScore norms e

theorem mem_pipeline_iff {today : ℤ} {hf hd : Bool} {sources : List (List RawRecord)}
    {rec : Rec} :
    rec ∈ pipeline today hf hd sources ↔ rec ∈ scoredRecords today hf hd sources :=
  List.mem_mergeSort

theorem mem_scored_shape {today : ℤ} {hf hd : Bool} {sources : List (List RawRecord)}
    {rec : Rec} (h : rec ∈ scoredRecords today hf hd sources) :
    ∃ e ∈ enrichedBatch today hf hd sources,
      rec = scoreRow (batchNorms today hf hd sources) e := by
  unfold scoredRecords at h
  obtain ⟨e, he, hre⟩ := List.mem_map.mp h
  exact ⟨e, he, hre.symm⟩

theorem scored_map_mobileNorm (today : ℤ) (hf hd : Bool)
    (sources : List (List RawRecord)) :
    (scoredRecords today hf hd sources).map (fun r => r.mobileNorm)
      = batchNorms today hf hd sources := by
  unfold scoredRecords batchNorms
  rw [List.map_map]
  rfl

theorem pipeline_count_norms (today : ℤ) (hf hd : Bool)
    (sources : List (List RawRecord)) (m : String) :
    ((pipeline today hf hd sources).map (fun r => r.mobileNorm)).count m
      = (batchNorms today hf hd sources).count m := by
  have hp : List.Perm
      ((pipeline today hf hd sources).map (fun r => r.mobileNorm))
      ((scoredRecords today hf hd sources).map (fun r => r.mobileNorm)) :=
    (List.mergeSort_perm _ recLE).map _
  rw [hp.count_eq, scored_map_mobileNorm]

theorem dateLE_trans (a b c : Option ℤ) (hab : dateLE a b = true)
    (hbc : dateLE b c = true) : dateLE a c = true := by
  cases a <;> cases b <;> cases c <;> simp_all [dateLE]
  omega

theorem dateLE_total (a b : Option ℤ) : dateLE a b = true ∨ dateLE b a = true := by
  cases a <;> cases b <;> simp [dateLE]
  omega

theorem recLE_iff (a b : Rec) : recLE a b = true ↔
    (a.fakeScore < b.fakeScore ∨
      (a.fakeScore = b.fakeScore ∧ dateLE a.registerDate b.registerDate = true)) := by
  unfold recLE
  split_ifs with h
  · constructor
    · intro hd
      exact Or.inr ⟨h, hd⟩
    · rintro (hlt | ⟨-, hd⟩)
      · exact absurd h (ne_of_lt hlt)
      · exact hd
  · simp only [decide_eq_true_eq]
    constructor
    · intro hle
      exact Or.inl (lt_of_le_of_ne hle h)
    · rintro (hlt | ⟨he, -⟩)
      · exact le_of_lt hlt
      · exact absurd he h

theorem recLE_trans (a b c : Rec) (hab : recLE a b = true) (hbc : recLE b c = true) :
    recLE a c = true := by
  rw [recLE_iff] at hab hbc ⊢
  rcases hab with h1 | ⟨h1, d1⟩ <;> rcases hbc with h2 | ⟨h2, d2⟩
  · exact Or.inl (by omega)
  · exact Or.inl (by omega)
  · exact Or.inl (by omega)
  · exact Or.inr ⟨h1.trans h2, dateLE_trans _ _ _ d1 d2⟩

theorem recLE_total (a b : Rec) : (recLE a b || recLE b a) = true := by
  rw [Bool.or_eq_true, recLE_iff, recLE_iff]
  rcases lt_trichotomy a.fakeScore b.fakeScore with h | h | h
  · exact Or.inl (Or.inl h)
  · rcases dateLE_total a.registerDate b.registerDate with hd | hd
    · exact Or.inl (Or.inr ⟨h, hd⟩)
    · exact Or.inr (Or.inr ⟨h.symm, hd⟩)
  · exact Or.inr (Or.inl h)

/-- C1: `build_register_date` is a batch-wide two-tier fallback: with the
fragment columns present, the fragment parse is kept for every row exactly
when fewer than 90% of rows failed (failed rows then stay absent, with no
per-row fall back to the `Date` text); only a rejected or unavailable
fragment attempt reaches the `Date` column, parsed per row; with neither
source every date is absent. -/
theorem C1_register_date_fallback (hasDateCol : Bool) (rows : List RawRecord) :
    (10 * (rows.map parseFragments).countP Option.isNone < 9 * rows.length →
       build_register_date true hasDateCol rows = rows.map parseFragments)
    ∧ (9 * rows.length ≤ 10 * (rows.map parseFragments).countP Option.isNone →
       build_register_date true hasDateCol rows = dateFallback hasDateCol rows)
    ∧ build_register_date false hasDateCol rows = dateFallback hasDateCol rows
    ∧ dateFallback true rows = rows.map (fun r => r.Date.bind parseDateText)
    ∧ dateFallback false rows = rows.map (fun _ => none) := by
  refine ⟨fun h => ?_, fun h => ?_, ?_, rfl, rfl⟩
  · simp only [build_register_date, if_true]
    rw [if_pos h]
  · simp only [build_register_date, if_true]
    rw [if_neg (by omega)]
  · simp only [build_register_date, Bool.false_eq_true, if_false]

/-- A raw row whose date fragments parse (2020-05-17). -/
def c1RowGood : RawRecord :=
  { FirstName := none, Mobile := none, S1 := none, S2 := none,
    Year := some 2020, Month1 := some 5, Day := some 17, Date := none }

/-- A raw row whose date fragments do not parse (missing year cell). -/
def c1RowBad : RawRecord :=
  { FirstName := none, Mobile := none, S1 := none, S2 := none,
    Year := none, Month1 := some 1, Day := some 2, Date := none }

/-- C1 witness: a two-row batch with one unparseable fragment row (50%
failure, below the 90% cutoff) keeps the fragment result, the bad row
staying absent. -/
theorem C1_register_date_fallback_witness :
    10 * (([c1RowGood, c1RowBad].map parseFragments).countP Option.isNone)
      < 9 * ([c1RowGood, c1RowBad] : List RawRecord).length
    ∧ build_register_date true true [c1RowGood, c1RowBad] = [some 18399, none] :=
  ⟨by decide, by
    rw [(C1_register_date_fallback true [c1RowGood, c1RowBad]).1 (by decide)]
    decide⟩

/-- C7: the exported table has exactly as many records as the input batches
hold together: merge, enrichment, scoring and sorting neither drop nor add
rows. -/
theorem C7_row_count (today : ℤ) (hf hd : Bool) (sources : List (List RawRecord)) :
    (pipeline today hf hd sources).length = (sources.map List.length).sum := by
  unfold pipeline scoredRecords enrichedBatch mergedRows
  rw [List.length_mergeSort, List.length_map, length_enrich, List.length_flatten]

theorem mem_pipeline_score (today : ℤ) (hf hd : Bool) (sources : List (List RawRecord))
    (rec : Rec) (h : rec ∈ pipeline today hf hd sources) :
    rec.fakeScore = rawScore (batchNorms today hf hd sources) rec.toEnriched
    ∧ rec.confidence = confidence_label rec.fakeScore
    ∧ rec.salesReady = decide (rec.fakeScore ≤ DEFAULT_FAKE_THRESHOLD) := by
  obtain ⟨e, he, rfl⟩ := mem_scored_shape (mem_pipeline_iff.mp h)
  refine ⟨?_, rfl, rfl⟩
  rw [scoreRow_fakeScore]
  exact rfl

theorem mem_pipeline_enrich_shape {today : ℤ} {hf hd : Bool}
    {sources : List (List RawRecord)} {rec : Rec}
    (h : rec ∈ pipeline today hf hd sources) :
    ∃ r d, rec.toEnriched = enrichRow today r d := by
  obtain ⟨e, he, rfl⟩ := mem_scored_shape (mem_pipeline_iff.mp h)
  obtain ⟨r, d, rfl⟩ := mem_enrich_shape he
  exact ⟨r, d, rfl⟩

theorem enrichRow_props (today : ℤ) (r : RawRecord) (d : Option ℤ) :
    ((enrichRow today r d).predictedBirth.isSome = true →
       (enrichRow today r d).status = Status.Pregnant)
    ∧ ((enrichRow today r d).childAgeMonths.isSome = true →
       (enrichRow today r d).status = Status.Has_Child)
    ∧ ¬((enrichRow today r d).predictedBirth.isSome = true
        ∧ (enrichRow today r d).childAgeMonths.isSome = true)
    ∧ ((enrichRow today r d).status = Status.Pregnant →
       (enrichRow today r d).predictedBirth
         = d.map (fun x => x + PREDICT_REMAINING_WEEKS * 7))
    ∧ (enrichRow today r d).registerDate = d := by
  cases hst : pregnancy_status r <;>
    simp [enrichRow, hst]

/-- C8: the exported collection is sorted: fake scores are non-decreasing,
and within equal scores the present registration dates are non-decreasing;
moreover the output is a permutation of the scored records, so the sort
neither filters records nor alters field values. -/
theorem C8_output_ordering (today : ℤ) (hf hd : Bool)
    (sources : List (List RawRecord)) :
    (pipeline today hf hd sources).Pairwise (fun a b =>
        a.fakeScore ≤ b.fakeScore ∧
        (a.fakeScore = b.fakeScore → ∀ x y, a.registerDate = some x →
          b.registerDate = some y → x ≤ y))
    ∧ List.Perm (pipeline today hf hd sources) (scoredRecords today hf hd sources) := by
  constructor
  · have hs : (pipeline today hf hd sources).Pairwise (fun a b => recLE a b = true) :=
      List.sorted_mergeSort recLE_trans recLE_total
        (scoredRecords today hf hd sources)
    refine hs.imp ?_
    intro a b hab
    rcases (recLE_iff a b).mp hab with hlt | ⟨heq, hdle⟩
    · exact ⟨le_of_lt hlt, fun he => absurd he (ne_of_lt hlt)⟩
    · refine ⟨le_of_eq heq, fun _ x y hx hy => ?_⟩
      rw [hx, hy] at hdle
      simpa [dateLE] using hdle
  · exact List.mergeSort_perm _ recLE

/-- A placeholder record used as the irrelevant default of `List.getD`. -/
def defaultRec : Rec :=
  { firstName := none, mobileNorm := "", registerDate := none,
    status := Status.Unknown, predictedBirth := none, childAgeMonths := none,
    fakeScore := 0, confidence := none, salesReady := true }

theorem pipeline_eq_of_sorted {today : ℤ} {hf hd : Bool}
    {sources : List (List RawRecord)}
    (h : (scoredRecords today hf hd sources).Pairwise (fun a b => recLE a b = true)) :
    pipeline today hf hd sources = scoredRecords today hf hd sources :=
  List.mergeSort_of_sorted h

/-- A raw row with neither survey marker (status Unknown) and a valid
fragment date. -/
def c3RowUnknown : RawRecord :=
  { FirstName := some "A", Mobile := some "0901234567", S1 := none, S2 := none,
    Year := some 2020, Month1 := some 5, Day := some 17, Date := none }

/-- C3 counterexample: for a record with status Unknown, neither the
predicted birth date nor the child age is populated, so it is false that
exactly one of the two is populated for every output record. -/
theorem C3_exactly_one_counterexample :
    ¬ (∀ rec ∈ pipeline 20000 true false [[c3RowUnknown]],
        rec.predictedBirth.isSome ≠ rec.childAgeMonths.isSome) := by
  have hp : pipeline 20000 true false [[c3RowUnknown]]
      = scoredRecords 20000 true false [[c3RowUnknown]] :=
    pipeline_eq_of_sorted (by decide)
  intro h
  have hrec := h ((pipeline 20000 true false [[c3RowUnknown]]).getD 0 defaultRec)
    (by rw [hp]; decide)
  apply hrec
  rw [hp]
  decide

/-- C3 (amended): at most one of the two predictions is populated per
output record, and a populated one is consistent with the status: the
predicted birth date only for Pregnant records, the child age only for
Has_Child records. -/
theorem C3_at_most_one_prediction (today : ℤ) (hf hd : Bool)
    (sources : List (List RawRecord)) :
    ∀ rec ∈ pipeline today hf hd sources,
      ¬(rec.predictedBirth.isSome = true ∧ rec.childAgeMonths.isSome = true)
      ∧ (rec.predictedBirth.isSome = true → rec.status = Status.Pregnant)
      ∧ (rec.childAgeMonths.isSome = true → rec.status = Status.Has_Child) := by
  intro rec h
  obtain ⟨r, d, hsh⟩ := mem_pipeline_enrich_shape h
  have hp := enrichRow_props today r d
  rw [show rec.predictedBirth = rec.toEnriched.predictedBirth from rfl,
      show rec.childAgeMonths = rec.toEnriched.childAgeMonths from rfl,
      show rec.status = rec.toEnriched.status from rfl, hsh]
  exact ⟨hp.2.2.1, hp.1, hp.2.1⟩

/-- A raw row with the S1 marker set (status Pregnant) and a valid
fragment date. -/
def c3RowPregnant : RawRecord :=
  { FirstName := some "P", Mobile := some "0901234567", S1 := some "x", S2 := none,
    Year := some 2020, Month1 := some 5, Day := some 17, Date := none }

/-- C3 witness: the amended statement instantiated on a concrete Pregnant
record in a concrete batch. -/
theorem C3_at_most_one_prediction_witness :
    ((pipeline 20000 true false [[c3RowPregnant]]).getD 0 defaultRec
        ∈ pipeline 20000 true false [[c3RowPregnant]])
    ∧ (¬(((pipeline 20000 true false [[c3RowPregnant]]).getD 0 defaultRec).predictedBirth.isSome = true
         ∧ ((pipeline 20000 true false [[c3RowPregnant]]).getD 0 defaultRec).childAgeMonths.isSome = true)
       ∧ (((pipeline 20000 true false [[c3RowPregnant]]).getD 0 defaultRec).predictedBirth.isSome = true →
          ((pipeline 20000 true false [[c3RowPregnant]]).getD 0 defaultRec).status = Status.Pregnant)
       ∧ (((pipeline 20000 true false [[c3RowPregnant]]).getD 0 defaultRec).childAgeMonths.isSome = true →
          ((pipeline 20000 true false [[c3RowPregnant]]).getD 0 defaultRec).status = Status.Has_Child)) := by
  have hp : pipeline 20000 true false [[c3RowPregnant]]
      = scoredRecords 20000 true false [[c3RowPregnant]] :=
    pipeline_eq_of_sorted (by decide)
  refine ⟨by rw [hp]; decide, ?_⟩
  exact C3_at_most_one_prediction 20000 true false [[c3RowPregnant]]
    ((pipeline 20000 true false [[c3RowPregnant]]).getD 0 defaultRec)
    (by rw [hp]; decide)

/-- C6: for every Pregnant output record the predicted birth date is the
registration date plus `PREDICT_REMAINING_WEEKS * 7 = 140` days, and an
absent registration date yields an absent prediction. -/
theorem C6_predicted_birth (today : ℤ) (hf hd : Bool)
    (sources : List (List RawRecord)) :
    ∀ rec ∈ pipeline today hf hd sources, rec.status = Status.Pregnant →
      rec.predictedBirth = rec.registerDate.map (fun d => d + PREDICT_REMAINING_WEEKS * 7)
      ∧ rec.predictedBirth = rec.registerDate.map (fun d => d + 140)
      ∧ (rec.registerDate = none → rec.predictedBirth = none) := by
  intro rec h hst
  obtain ⟨r, d, hsh⟩ := mem_pipeline_enrich_shape h
  have hp := enrichRow_props today r d
  have hst2 : (enrichRow today r d).status = Status.Pregnant := by
    rw [← hsh]; exact hst
  have hpred : rec.toEnriched.predictedBirth
      = d.map (fun x => x + PREDICT_REMAINING_WEEKS * 7) := by
    rw [hsh]; exact hp.2.2.2.1 hst2
  have hdate : rec.toEnriched.registerDate = d := by
    rw [hsh]; exact hp.2.2.2.2
  refine ⟨?_, ?_, ?_⟩
  · rw [show rec.predictedBirth = rec.toEnriched.predictedBirth from rfl, hpred,
       show rec.registerDate = rec.toEnriched.registerDate from rfl, hdate]
  · rw [show rec.predictedBirth = rec.toEnriched.predictedBirth from rfl, hpred,
       show rec.registerDate = rec.toEnriched.registerDate from rfl, hdate]
    rfl
  · intro hnone
    rw [show rec.registerDate = rec.toEnriched.registerDate from rfl, hdate] at hnone
    rw [show rec.predictedBirth = rec.toEnriched.predictedBirth from rfl, hpred, hnone]
    rfl

/-- C6 witness: the concrete Pregnant record registered on day 18399
(2020-05-17) gets predicted birth day 18539, which is 140 days later. -/
theorem C6_predicted_birth_witness :
    ((pipeline 20000 true false [[c3RowPregnant]]).getD 0 defaultRec
        ∈ pipeline 20000 true false [[c3RowPregnant]])
    ∧ ((pipeline 20000 true false [[c3RowPregnant]]).getD 0 defaultRec).status = Status.Pregnant
    ∧ ((pipeline 20000 true false [[c3RowPregnant]]).getD 0 defaultRec).predictedBirth
        = ((pipeline 20000 true false [[c3RowPregnant]]).getD 0 defaultRec).registerDate.map
            (fun d => d + 140) := by
  have hp : pipeline 20000 true false [[c3RowPregnant]]
      = scoredRecords 20000 true false [[c3RowPregnant]] :=
    pipeline_eq_of_sorted (by decide)
  refine ⟨by rw [hp]; decide, by rw [hp]; decide, ?_⟩
  exact (C6_predicted_birth 20000 true false [[c3RowPregnant]]
    ((pipeline 20000 true false [[c3RowPregnant]]).getD 0 defaultRec)
    (by rw [hp]; decide) (by rw [hp]; decide)).2.1

/-- C2: every output record's fake score is the clamp to [0,100] of the sum
of the five binary signals, hence always within [0,100]; a record firing
only the missing-name and short-unique-phone signals scores exactly 45. -/
theorem C2_fake_score (today : ℤ) (hf hd : Bool) (sources : List (List RawRecord)) :
    ∀ rec ∈ pipeline today hf hd sources,
      rec.fakeScore = clip
        ((if rec.firstName.isNone then 20 else 0)
          + (if rec.mobileNorm.length < 9 then 25 else 0)
          + (if 1 < ((pipeline today hf hd sources).map (fun r => r.mobileNorm)).count
                rec.mobileNorm then 20 else 0)
          + (if rec.registerDate.isNone then 15 else 0)
          + (if (72 : ℚ) < rec.childAgeMonths.getD 0 then 20 else 0))
      ∧ 0 ≤ rec.fakeScore ∧ rec.fakeScore ≤ 100
      ∧ (rec.firstName = none →
          rec.mobileNorm.length < 9 →
          ((pipeline today hf hd sources).map (fun r => r.mobileNorm)).count
              rec.mobileNorm = 1 →
          rec.registerDate.isSome = true →
          rec.childAgeMonths.getD 0 ≤ 72 →
          rec.fakeScore = 45) := by
  intro rec h
  obtain ⟨hsc, -, -⟩ := mem_pipeline_score today hf hd sources rec h
  have h0 : 0 ≤ rec.fakeScore := by rw [hsc]; exact rawScore_nonneg _ _
  have h100 : rec.fakeScore ≤ 100 := by rw [hsc]; exact rawScore_le_100 _ _
  have hform : rec.fakeScore =
      (if rec.firstName.isNone then 20 else 0)
      + (if rec.mobileNorm.length < 9 then 25 else 0)
      + (if 1 < ((pipeline today hf hd sources).map (fun r => r.mobileNorm)).count
            rec.mobileNorm then 20 else 0)
      + (if rec.registerDate.isNone then 15 else 0)
      + (if (72 : ℚ) < rec.childAgeMonths.getD 0 then 20 else 0) := by
    rw [hsc]
    unfold rawScore
    rw [pipeline_count_norms]
  refine ⟨?_, h0, h100, ?_⟩
  · rw [← hform]
    unfold clip
    omega
  · intro h1 h2 h3 h4 h5
    have h4' : rec.registerDate.isNone = false := by
      cases hh : rec.registerDate
      · rw [hh] at h4; simp at h4
      · rfl
    rw [hform, h1, h3, h4']
    simp only [Option.isNone_none, if_true, Bool.false_eq_true, if_false]
    rw [if_pos h2, if_neg (by omega), if_neg (not_lt.mpr h5)]
    norm_num

/-- A raw row with first name present, a clean unique 10-digit phone and
a valid fragment date: no signal fires. -/
def c2RowClean : RawRecord :=
  { FirstName := some "B", Mobile := some "0901234567", S1 := none, S2 := none,
    Year := some 2020, Month1 := some 5, Day := some 17, Date := none }

/-- A raw row with a missing first name and a unique 5-digit phone but a
valid fragment date: exactly the missing-name and short-phone signals. -/
def c2RowSuspicious : RawRecord :=
  { FirstName := none, Mobile := some "12345", S1 := none, S2 := none,
    Year := some 2020, Month1 := some 5, Day := some 17, Date := none }

/-- C2 witness: in the concrete two-row batch, the missing-name,
unique-5-digit-phone, valid-date record scores exactly 45. -/
theorem C2_fake_score_witness :
    ((pipeline 20000 true false [[c2RowClean], [c2RowSuspicious]]).getD 1 defaultRec
        ∈ pipeline 20000 true false [[c2RowClean], [c2RowSuspicious]])
    ∧ ((pipeline 20000 true false [[c2RowClean], [c2RowSuspicious]]).getD 1
        defaultRec).firstName = none
    ∧ ((pipeline 20000 true false [[c2RowClean], [c2RowSuspicious]]).getD 1
        defaultRec).fakeScore = 45 := by
  have hp : pipeline 20000 true false [[c2RowClean], [c2RowSuspicious]]
      = scoredRecords 20000 true false [[c2RowClean], [c2RowSuspicious]] :=
    pipeline_eq_of_sorted (by decide)
  refine ⟨by rw [hp]; decide, by rw [hp]; decide, ?_⟩
  exact (C2_fake_score 20000 true false [[c2RowClean], [c2RowSuspicious]]
      ((pipeline 20000 true false [[c2RowClean], [c2RowSuspicious]]).getD 1 defaultRec)
      (by rw [hp]; decide)).2.2.2
    (by rw [hp]; decide) (by rw [hp]; decide) (by rw [hp]; decide)
    (by rw [hp]; decide) (by rw [hp]; decide)

/-- The sum of the four fake-score signals other than the duplicate-phone
signal, for one output record. -/
def dupFreeScore (rec : Rec) : ℤ :=
  (if rec.firstName.isNone then 20 else 0)
  + (if rec.mobileNorm.length < 9 then 25 else 0)
  + (if rec.registerDate.isNone then 15 else 0)
  + (if (72 : ℚ) < rec.childAgeMonths.getD 0 then 20 else 0)

theorem one_lt_count_map_of_two_mem {l : List Rec} {a b : Rec} (ha : a ∈ l)
    (hb : b ∈ l) (hne : a ≠ b) (he : a.mobileNorm = b.mobileNorm) :
    1 < (l.map (fun r => r.mobileNorm)).count a.mobileNorm := by
  obtain ⟨s, t, rfl⟩ := List.append_of_mem ha
  have hbst : b ∈ s ∨ b ∈ t := by
    rcases List.mem_append.mp hb with h | h
    · exact Or.inl h
    · rcases List.mem_cons.mp h with h | h
      · exact absurd h.symm hne
      · exact Or.inr h
  rw [List.map_append, List.map_cons, List.count_append, List.count_cons]
  have hself : (a.mobileNorm == a.mobileNorm) = true := beq_self_eq_true _
  rw [if_pos hself]
  rcases hbst with h | h
  · have hpos : 0 < (s.map (fun r => r.mobileNorm)).count a.mobileNorm := by
      rw [List.count_pos_iff]
      have := List.mem_map_of_mem (fun r : Rec => r.mobileNorm) h
      rw [he]
      exact this
    omega
  · have hpos : 0 < (t.map (fun r => r.mobileNorm)).count a.mobileNorm := by
      rw [List.count_pos_iff]
      have := List.mem_map_of_mem (fun r : Rec => r.mobileNorm) h
      rw [he]
      exact this
    omega

/-- C4: the duplicate-phone signal contributes exactly +20 to a record's
fake score iff its normalized phone (empty included) occurs more than once
in the batch; in particular two distinct records with the same normalized
phone are both penalized. -/
theorem C4_duplicate_penalty (today : ℤ) (hf hd : Bool)
    (sources : List (List RawRecord)) :
    (∀ rec ∈ pipeline today hf hd sources,
       rec.fakeScore = dupFreeScore rec +
         (if 1 < ((pipeline today hf hd sources).map (fun r => r.mobileNorm)).count
               rec.mobileNorm then 20 else 0))
    ∧ (∀ a ∈ pipeline today hf hd sources, ∀ b ∈ pipeline today hf hd sources,
        a ≠ b → a.mobileNorm = b.mobileNorm →
          a.fakeScore = dupFreeScore a + 20) := by
  have hmain : ∀ rec ∈ pipeline today hf hd sources,
      rec.fakeScore = dupFreeScore rec +
        (if 1 < ((pipeline today hf hd sources).map (fun r => r.mobileNorm)).count
              rec.mobileNorm then 20 else 0) := by
    intro rec h
    obtain ⟨hsc, -, -⟩ := mem_pipeline_score today hf hd sources rec h
    rw [hsc]
    unfold rawScore dupFreeScore
    rw [pipeline_count_norms]
    ring
  refine ⟨hmain, ?_⟩
  intro a ha b hb hne he
  have hcount := one_lt_count_map_of_two_mem ha hb hne he
  rw [hmain a ha, if_pos hcount]

/-- A raw row with a clean duplicated phone (first of the pair). -/
def c4RowDup1 : RawRecord :=
  { FirstName := some "C", Mobile := some "0901234567", S1 := none, S2 := none,
    Year := some 2020, Month1 := some 5, Day := some 17, Date := none }

/-- A raw row with a clean duplicated phone (second of the pair). -/
def c4RowDup2 : RawRecord :=
  { FirstName := some "D", Mobile := some "0901234567", S1 := none, S2 := none,
    Year := some 2020, Month1 := some 5, Day := some 17, Date := none }

/-- A raw row with a null phone, whose normalized phone is empty. -/
def c4RowBlank1 : RawRecord :=
  { FirstName := some "E", Mobile := none, S1 := none, S2 := none,
    Year := some 2020, Month1 := some 5, Day := some 17, Date := none }

/-- A second raw row with a null phone, normalizing to the same empty
string as the first. -/
def c4RowBlank2 : RawRecord :=
  { FirstName := some "F", Mobile := none, S1 := none, S2 := none,
    Year := some 2020, Month1 := some 5, Day := some 17, Date := none }

/-- C4 witness: in a batch holding a duplicated clean phone pair and two
blank-phone records, two distinct records that both normalize to the empty
string are each penalized +20 on top of their other signals. -/
theorem C4_duplicate_penalty_witness :
    ((pipeline 20000 true false [[c4RowDup1, c4RowDup2, c4RowBlank1, c4RowBlank2]]).getD 2
        defaultRec ∈ pipeline 20000 true false [[c4RowDup1, c4RowDup2, c4RowBlank1, c4RowBlank2]])
    ∧ ((pipeline 20000 true false [[c4RowDup1, c4RowDup2, c4RowBlank1, c4RowBlank2]]).getD 3
        defaultRec ∈ pipeline 20000 true false [[c4RowDup1, c4RowDup2, c4RowBlank1, c4RowBlank2]])
    ∧ (pipeline 20000 true false [[c4RowDup1, c4RowDup2, c4RowBlank1, c4RowBlank2]]).getD 2
        defaultRec ≠ (pipeline 20000 true false [[c4RowDup1, c4RowDup2, c4RowBlank1, c4RowBlank2]]).getD 3
        defaultRec
    ∧ ((pipeline 20000 true false [[c4RowDup1, c4RowDup2, c4RowBlank1, c4RowBlank2]]).getD 2
        defaultRec).mobileNorm = ""
    ∧ ((pipeline 20000 true false [[c4RowDup1, c4RowDup2, c4RowBlank1, c4RowBlank2]]).getD 2
        defaultRec).fakeScore
      = dupFreeScore ((pipeline 20000 true false [[c4RowDup1, c4RowDup2, c4RowBlank1, c4RowBlank2]]).getD 2
        defaultRec) + 20 := by
  have hp : pipeline 20000 true false [[c4RowDup1, c4RowDup2, c4RowBlank1, c4RowBlank2]]
      = scoredRecords 20000 true false [[c4RowDup1, c4RowDup2, c4RowBlank1, c4RowBlank2]] :=
    pipeline_eq_of_sorted (by decide)
  refine ⟨by rw [hp]; decide, by rw [hp]; decide, by rw [hp]; decide,
    by rw [hp]; decide, ?_⟩
  exact (C4_duplicate_penalty 20000 true false
      [[c4RowDup1, c4RowDup2, c4RowBlank1, c4RowBlank2]]).2
    ((pipeline 20000 true false [[c4RowDup1, c4RowDup2, c4RowBlank1, c4RowBlank2]]).getD 2
      defaultRec) (by rw [hp]; decide)
    ((pipeline 20000 true false [[c4RowDup1, c4RowDup2, c4RowBlank1, c4RowBlank2]]).getD 3
      defaultRec) (by rw [hp]; decide)
    (by rw [hp]; decide) (by rw [hp]; decide)

/-- C5: the confidence label bins the score with upper-inclusive,
lower-exclusive boundaries — High up to 30, Medium on (30,70], Low on
(70,100] — agrees with the pipeline's label column, and takes the claimed
values at the boundary scores 30, 31, 70 and 71. -/
theorem C5_confidence_bins (today : ℤ) (hf hd : Bool)
    (sources : List (List RawRecord)) (s : ℤ) (h0 : 0 ≤ s) (h100 : s ≤ 100) :
    confidence_label s
      = some (if s ≤ 30 then Label.High else if s ≤ 70 then Label.Medium else Label.Low)
    ∧ (∀ rec ∈ pipeline today hf hd sources,
        rec.confidence = confidence_label rec.fakeScore)
    ∧ confidence_label 30 = some Label.High
    ∧ confidence_label 31 = some Label.Medium
    ∧ confidence_label 70 = some Label.Medium
    ∧ confidence_label 71 = some Label.Low := by
  refine ⟨?_, fun rec h => (mem_pipeline_score today hf hd sources rec h).2.1,
    by decide, by decide, by decide, by decide⟩
  unfold confidence_label
  split_ifs <;> first | rfl | (exfalso; omega)

/-- C5 witness: the bin computation at the concrete in-range score 45. -/
theorem C5_confidence_bins_witness :
    (0 : ℤ) ≤ 45 ∧ (45 : ℤ) ≤ 100
    ∧ confidence_label 45
      = some (if (45 : ℤ) ≤ 30 then Label.High
              else if (45 : ℤ) ≤ 70 then Label.Medium else Label.Low) :=
  ⟨by decide, by decide,
   (C5_confidence_bins 0 false false [] 45 (by decide) (by decide)).1⟩

/-- C10: with the default threshold 70, an output record is sales-ready
iff its confidence label is High or Medium, and not sales-ready iff the
label is Low. -/
theorem C10_sales_ready_iff (today : ℤ) (hf hd : Bool)
    (sources : List (List RawRecord)) :
    ∀ rec ∈ pipeline today hf hd sources,
      (rec.salesReady = true ↔
        (rec.confidence = some Label.High ∨ rec.confidence = some Label.Medium))
      ∧ (rec.salesReady = false ↔ rec.confidence = some Label.Low) := by
  intro rec h
  obtain ⟨hsc, hcf, hsr⟩ := mem_pipeline_score today hf hd sources rec h
  have h0 : 0 ≤ rec.fakeScore := by rw [hsc]; exact rawScore_nonneg _ _
  have h100 : rec.fakeScore ≤ 100 := by rw [hsc]; exact rawScore_le_100 _ _
  rw [hsr, hcf]
  unfold confidence_label DEFAULT_FAKE_THRESHOLD
  by_cases h70 : rec.fakeScore ≤ 70
  · rw [decide_eq_true h70]
    by_cases h30 : rec.fakeScore ≤ 30
    · rw [if_pos (⟨by omega, h30⟩ : -1 < rec.fakeScore ∧ rec.fakeScore ≤ 30)]
      decide
    · rw [if_neg (by omega),
        if_pos (⟨by omega, h70⟩ : 30 < rec.fakeScore ∧ rec.fakeScore ≤ 70)]
      decide
  · rw [decide_eq_false (by omega), if_neg (by omega), if_neg (by omega),
      if_pos (⟨by omega, h100⟩ : 70 < rec.fakeScore ∧ rec.fakeScore ≤ 100)]
    decide

/-- C10 witness: the relation instantiated on a concrete scored record. -/
theorem C10_sales_ready_iff_witness :
    ((pipeline 20000 true false [[c2RowClean]]).getD 0 defaultRec
        ∈ pipeline 20000 true false [[c2RowClean]])
    ∧ ((((pipeline 20000 true false [[c2RowClean]]).getD 0 defaultRec).salesReady = true ↔
        (((pipeline 20000 true false [[c2RowClean]]).getD 0 defaultRec).confidence
            = some Label.High
         ∨ ((pipeline 20000 true false [[c2RowClean]]).getD 0 defaultRec).confidence
            = some Label.Medium))
       ∧ (((pipeline 20000 true false [[c2RowClean]]).getD 0 defaultRec).salesReady = false ↔
          ((pipeline 20000 true false [[c2RowClean]]).getD 0 defaultRec).confidence
            = some Label.Low)) := by
  have hp : pipeline 20000 true false [[c2RowClean]]
      = scoredRecords 20000 true false [[c2RowClean]] :=
    pipeline_eq_of_sorted (by decide)
  refine ⟨by rw [hp]; decide, ?_⟩
  exact C10_sales_ready_iff 20000 true false [[c2RowClean]]
    ((pipeline 20000 true false [[c2RowClean]]).getD 0 defaultRec)
    (by rw [hp]; decide)
